import Mathlib

/-!
Shallow embedding of the time-series alignment, stacking and hover/focus
engine of src/src/components/Graph/Graph.js.

Modelling conventions, used throughout:
* JavaScript numbers are modelled exactly: a runtime number is a `JsNum`
  (NaN, the two infinities, or an exact rational); the double rounding of
  the runtime is not modelled, so finite arithmetic is exact rational
  arithmetic.
* JavaScript `null` is `Option.none`; a possibly-null number is
  `Option JsNum`.  `jsToNumber` is the ToNumber coercion applied by
  arithmetic and relational operators (`null` coerces to `+0`).
* `Array.prototype.sort()` with no comparator compares the string forms of
  its elements by code units.  The series names are sorted by `strLeB`, the
  code-unit string comparison, directly; the grid timestamps are sorted by
  `strLeB` applied to `jsNumToString`, the ToString rendering of a number
  (plain decimal digits for integers, the minimal terminating decimal
  expansion otherwise).  This order coincides with the ascending numeric
  order exactly when the rendered timestamps compare alike as strings and
  as numbers (as equal-width unix timestamps do), and not in general.
* lodash `range`, `sortedIndex`, `minBy`, `first`, `last` and the d3
  `scaleQuantize` and `stack` (with `stackOffsetNone`) helpers are embedded
  with the semantics of the library sources the component imports.
-/

/-- A JavaScript number: NaN, one of the two infinities, or a finite value
(modelled as an exact rational). -/
inductive JsNum where
  | nan : JsNum
  | posInf : JsNum
  | negInf : JsNum
  | num : ℚ → JsNum
deriving DecidableEq, Repr

/-- ToNumber coercion for a number-or-null value: `null` coerces to `+0`. -/
def jsToNumber (v : Option JsNum) : JsNum := v.getD (JsNum.num 0)

/-- JavaScript addition on numbers. -/
def jsAdd : JsNum → JsNum → JsNum
  | JsNum.nan, _ => JsNum.nan
  | _, JsNum.nan => JsNum.nan
  | JsNum.posInf, JsNum.negInf => JsNum.nan
  | JsNum.negInf, JsNum.posInf => JsNum.nan
  | JsNum.posInf, _ => JsNum.posInf
  | _, JsNum.posInf => JsNum.posInf
  | JsNum.negInf, _ => JsNum.negInf
  | _, JsNum.negInf => JsNum.negInf
  | JsNum.num a, JsNum.num b => JsNum.num (a + b)

/-- JavaScript unary negation on numbers. -/
def jsNeg : JsNum → JsNum
  | JsNum.nan => JsNum.nan
  | JsNum.posInf => JsNum.negInf
  | JsNum.negInf => JsNum.posInf
  | JsNum.num a => JsNum.num (-a)

/-- JavaScript subtraction on numbers. -/
def jsSub (a b : JsNum) : JsNum := jsAdd a (jsNeg b)

/-- JavaScript Math.abs on numbers. -/
def jsAbs : JsNum → JsNum
  | JsNum.nan => JsNum.nan
  | JsNum.posInf => JsNum.posInf
  | JsNum.negInf => JsNum.posInf
  | JsNum.num a => JsNum.num |a|

/-- The strict `<` comparison on JavaScript numbers (false whenever one side
is NaN). -/
def jsLtB : JsNum → JsNum → Bool
  | JsNum.nan, _ => false
  | _, JsNum.nan => false
  | JsNum.posInf, _ => false
  | JsNum.negInf, JsNum.negInf => false
  | JsNum.negInf, _ => true
  | JsNum.num _, JsNum.negInf => false
  | JsNum.num a, JsNum.num b => decide (a < b)
  | JsNum.num _, JsNum.posInf => true

/-- The `>=` comparison on JavaScript numbers (false whenever one side is
NaN, otherwise the negation of `<`). -/
def jsGeB : JsNum → JsNum → Bool
  | JsNum.nan, _ => false
  | _, JsNum.nan => false
  | a, b => !(jsLtB a b)

/-- Code-unit comparison of two character lists: how JavaScript compares
strings (and how `Array.prototype.sort()` orders string elements). -/
def charListLeB : List Char → List Char → Bool
  | [], _ => true
  | _ :: _, [] => false
  | a :: as, b :: bs =>
    if a.toNat < b.toNat then true
    else if b.toNat < a.toNat then false
    else charListLeB as bs

/-- JavaScript string `<=`, by code units. -/
def strLeB (a b : String) : Bool := charListLeB a.toList b.toList

/-- Fuel-bounded count of how many times `p` divides `n` (the fuel `n`
itself always suffices). -/
def padicCountAux (p : ℕ) : ℕ → ℕ → ℕ
  | 0, _ => 0
  | fuel + 1, n => if n % p = 0 ∧ n ≠ 0 ∧ 1 < p then padicCountAux p fuel (n / p) + 1 else 0

/-- The number of times `p` divides `n`. -/
def padicCount (p n : ℕ) : ℕ := padicCountAux p n n

/-- ToString of a nonnegative JavaScript number: plain decimal digits for an
integer; otherwise the minimal terminating decimal expansion (the runtime
doubles handled here are binary fractions, so their exact decimal expansion
terminates; a rational that is not a terminating decimal cannot arise as a
double and renders as a fraction placeholder).  The exponential forms the
runtime uses below 1e-6 and at or above 1e21 do not arise for the
timestamps rendered here and are not modelled. -/
def jsNumToStringNN (q : ℚ) : String :=
  if q.den = 1 then Nat.repr q.num.toNat
  else
    let k := max (padicCount 2 q.den) (padicCount 5 q.den)
    let scaled := q * 10 ^ k
    if scaled.den = 1 then
      let n := scaled.num.toNat
      let fpStr := Nat.repr (n % 10 ^ k)
      Nat.repr (n / 10 ^ k) ++ "." ++
        String.mk (List.replicate (k - fpStr.length) '0') ++ fpStr
    else
      Nat.repr q.num.toNat ++ "/" ++ Nat.repr q.den

/-- ToString of a JavaScript number: the nonnegative rendering with a
leading minus sign for negative values. -/
def jsNumToString (q : ℚ) : String :=
  if q < 0 then "-" ++ jsNumToStringNN (-q) else jsNumToStringNN q

/-- The order `Array.prototype.sort()` applies to numbers when called with
no comparator: code-unit comparison of their string forms. -/
def jsSortLeB (a b : ℚ) : Bool := strLeB (jsNumToString a) (jsNumToString b)

/-- Whitespace skipped by parseFloat (the common StrWhiteSpace characters). -/
def jsIsWhitespace (c : Char) : Bool :=
  c == ' ' || c == '\t' || c == '\n' || c == '\r'

/-- Numeric value of a list of decimal digit characters. -/
def digitsVal (ds : List Char) : ℕ :=
  ds.foldl (fun a c => a * 10 + (c.toNat - 48)) 0

/-- Exponent part of a parseFloat literal: consumed only when at least one
digit follows the `e`/`E` (and its optional sign), as in the runtime. -/
def jsParseExponent (cs : List Char) : ℤ :=
  match cs with
  | 'e' :: rest =>
    (match rest with
     | '+' :: r => (digitsVal (r.takeWhile Char.isDigit) : ℤ)
     | '-' :: r =>
       if (r.takeWhile Char.isDigit) = [] then 0
       else -(digitsVal (r.takeWhile Char.isDigit) : ℤ)
     | r => (digitsVal (r.takeWhile Char.isDigit) : ℤ))
  | 'E' :: rest =>
    (match rest with
     | '+' :: r => (digitsVal (r.takeWhile Char.isDigit) : ℤ)
     | '-' :: r =>
       if (r.takeWhile Char.isDigit) = [] then 0
       else -(digitsVal (r.takeWhile Char.isDigit) : ℤ)
     | r => (digitsVal (r.takeWhile Char.isDigit) : ℤ))
  | _ => 0

/-- Mantissa-and-exponent part of parseFloat, after sign: digits, an
optional decimal point with more digits, and an optional exponent; NaN when
no digit is present.  Finite values are exact rationals. -/
def jsParseUnsigned (cs : List Char) : JsNum :=
  if cs.take 8 = "Infinity".toList then JsNum.posInf
  else
    let ip := cs.takeWhile Char.isDigit
    let r1 := cs.dropWhile Char.isDigit
    let fp := match r1 with
      | '.' :: r => r.takeWhile Char.isDigit
      | _ => []
    let r2 := match r1 with
      | '.' :: r => r.dropWhile Char.isDigit
      | r => r
    if ip = [] ∧ fp = [] then JsNum.nan
    else
      let mant : ℚ := (digitsVal ip : ℚ) + (digitsVal fp : ℚ) / 10 ^ fp.length
      JsNum.num (mant * 10 ^ (jsParseExponent r2))

/-- The parseFloat builtin: skip whitespace, an optional sign, then the
longest numeric prefix ("Infinity" included); NaN when no prefix parses. -/
def jsParseFloat (s : String) : JsNum :=
  let cs := s.toList.dropWhile jsIsWhitespace
  match cs with
  | '+' :: r => jsParseUnsigned r
  | '-' :: r => jsNeg (jsParseUnsigned r)
  | r => jsParseUnsigned r

/-- parseGraphValue (Graph.js lines 24 to 32): parseFloat the raw value and
turn a NaN result into a gap (`null`, here `none`). -/
def parseGraphValue (value : String) : Option JsNum :=
  match jsParseFloat value with
  | JsNum.nan => none
  | v => some v

/-- The 1e-6 tolerance constant of getTimestampQuantizer. -/
def tolEps : ℚ := 1 / 1000000

/-- Number of grid timestamps: the length of
lodash `range(endTimeSec, startTimeSec - 1e-6, -stepDurationSec)`,
which is `max(ceil(((startTimeSec - 1e-6) - endTimeSec) / -stepDurationSec), 0)`. -/
def gridCount (startTimeSec endTimeSec stepDurationSec : ℚ) : ℕ :=
  (⌈(endTimeSec - (startTimeSec - tolEps)) / stepDurationSec⌉).toNat

/-- The descending timestamp list generated by
`range(endTimeSec, startTimeSec - 1e-6, -stepDurationSec)`. -/
def gridDesc (startTimeSec endTimeSec stepDurationSec : ℚ) : List ℚ :=
  (List.range (gridCount startTimeSec endTimeSec stepDurationSec)).map
    (fun i : ℕ => endTimeSec - (i : ℚ) * stepDurationSec)

/-- The grid timestamp array as the code builds it: the generated
descending list after comparator-less `.sort()`, which orders the
timestamps by the code-unit comparison of their string forms (a stable
comparison sort under a total order, so insertion sort by `jsSortLeB`). -/
def gridList (startTimeSec endTimeSec stepDurationSec : ℚ) : List ℚ :=
  List.insertionSort (fun a b => jsSortLeB a b = true)
    (gridDesc startTimeSec endTimeSec stepDurationSec)

/-- Inner thresholds of a d3 `scaleQuantize` with domain `[x0, x1]` and a
range of `n` values: threshold `i` is `((i + 1) * x1 - (i - (n - 1)) * x0) / n`. -/
def d3Thresholds (x0 x1 : ℚ) (n : ℕ) : List ℚ :=
  (List.range (n - 1)).map
    (fun i : ℕ => (((i : ℚ) + 1) * x1 + (((n : ℚ) - 1) - (i : ℚ)) * x0) / (n : ℚ))

/-- A d3 `scaleQuantize` lookup: the range value indexed by the right-bisect
insertion point of `x` among the thresholds. -/
def d3ScaleQuantize (x0 x1 : ℚ) (rangeVals : List ℚ) (x : ℚ) : ℚ :=
  rangeVals.getD
    ((d3Thresholds x0 x1 rangeVals.length).countP (fun t => decide (t ≤ x))) 0

/-- getTimestampQuantizer (Graph.js lines 409 to 427): quantize onto the
sorted timestamp array, with the domain running from half a step below its
first element to half a step above its last element. -/
def getTimestampQuantizer (startTimeSec endTimeSec stepDurationSec : ℚ) :
    ℚ → ℚ :=
  let timestampSecs := gridList startTimeSec endTimeSec stepDurationSec
  let startDomain := timestampSecs.headD 0 - stepDurationSec / 2
  let endDomain := timestampSecs.getLastD 0 + stepDurationSec / 2
  d3ScaleQuantize startDomain endDomain timestampSecs

/-- A stored datapoint of an aligned series. -/
structure Dp where
  timestampSec : ℚ
  value : Option JsNum
  offset : JsNum
deriving DecidableEq, Repr

/-- An aligned series as stored by processMultiSeries. -/
structure AlignedSeries where
  name : String
  key : String
  color : String
  datapoints : List Dp
deriving DecidableEq, Repr

/-- The binary-search loop of lodash `sortedIndex` (baseSortedIndex): while
`low < high`, probe the middle element and move `low` past it when it is
strictly below the value, otherwise move `high` onto it.  The interval
shrinks at every step, so fuel equal to the initial interval length
suffices. -/
def sortedIndexGo (l : List ℚ) (x : ℚ) : ℕ → ℕ → ℕ → ℕ
  | 0, low, _ => low
  | fuel + 1, low, high =>
    if low < high then
      let mid := (low + high) / 2
      if l.getD mid 0 < x then sortedIndexGo l x fuel (mid + 1) high
      else sortedIndexGo l x fuel low mid
    else low

/-- lodash `sortedIndex`: the binary-search insertion point of the value,
computed whether or not the list is actually sorted. -/
def sortedIndexQ (l : List ℚ) (x : ℚ) : ℕ := sortedIndexGo l x l.length 0 l.length

/-- getDatapointAtTimestamp (Graph.js lines 34 to 38): binary-search the
timestamps and index the datapoints; an out-of-range index is the JavaScript
`undefined`, modelled as `none`. -/
def getDatapointAtTimestamp (series : AlignedSeries) (timestampSec : ℚ) :
    Option Dp :=
  let timestamps := series.datapoints.map Dp.timestampSec
  series.datapoints.get? (sortedIndexQ timestamps timestampSec)

/-- The mixed color palette (Graph.js lines 84 to 103). -/
def colorsMixed : List String :=
  ["hsl(209, 44%, 83%)", "hsl(98, 55%, 81%)", "hsl(210, 45%, 74%)",
   "hsl(166, 44%, 65%)", "hsl(230, 34%, 66%)", "hsl(196, 84%, 52%)",
   "hsl(240, 20%, 59%)", "hsl(197, 74%, 43%)", "hsl(261, 39%, 44%)",
   "hsl(213, 66%, 40%)", "hsl(261, 68%, 29%)", "hsl(232, 60%, 36%)",
   "hsl(248, 82%, 11%)", "hsl(212, 88%, 27%)"]

/-- The blue color palette (Graph.js lines 105 to 117). -/
def colorsBlue : List String :=
  ["hsl(98, 55%, 81%)", "hsl(166, 44%, 65%)", "hsl(196, 84%, 52%)",
   "hsl(197, 74%, 43%)", "hsl(213, 66%, 40%)", "hsl(232, 60%, 36%)",
   "hsl(212, 88%, 27%)"]

/-- The purple color palette (Graph.js lines 119 to 131). -/
def colorsPurple : List String :=
  ["hsl(209, 44%, 83%)", "hsl(210, 45%, 74%)", "hsl(230, 34%, 66%)",
   "hsl(240, 20%, 59%)", "hsl(286, 41%, 44%)", "hsl(303, 79%, 28%)",
   "hsl(248, 82%, 11%)"]

/-- A colorThemes entry: index into the palette modulo its length. -/
def themeColor (palette : List String) (index : ℕ) : String :=
  palette.getD (index % palette.length) ""

/-- JavaScript Number.prototype.toFixed for a nonnegative value: round to
the nearest multiple of `10 ^ -f`, ties to the larger value. -/
def jsToFixedNN (x : ℚ) (f : ℕ) : String :=
  let n : ℕ := (⌊x * 10 ^ f + 1 / 2⌋).toNat
  if f = 0 then Nat.repr n
  else
    let ip := n / 10 ^ f
    let fp := n % 10 ^ f
    let fpStr := Nat.repr fp
    Nat.repr ip ++ "." ++
      String.mk (List.replicate (f - fpStr.length) '0') ++ fpStr

/-- JavaScript Number.prototype.toFixed: sign first, then the nonnegative
rendering. -/
def jsToFixed (x : ℚ) (f : ℕ) : String :=
  if x < 0 then "-" ++ jsToFixedNN (-x) f else jsToFixedNN x f

/-- JavaScript Math.round: nearest integer, ties toward positive infinity. -/
def jsRound (x : ℚ) : ℤ := ⌊x + 1 / 2⌋

/-- Rendering of an integer JavaScript number, as template interpolation
shows it. -/
def intRepr (n : ℤ) : String :=
  if n < 0 then "-" ++ Nat.repr (-n).toNat else Nat.repr n.toNat

/-- The big-number prefix search of valueFormatters.none (Graph.js lines
140 to 145): first metric unit whose quotient is at least 2. -/
def bigNumberFind (number : ℚ) : Option (String × ℚ) :=
  [("T", (1000000000000 : ℚ)), ("G", 1000000000), ("M", 1000000),
   ("k", 1000)].find? (fun u => decide (2 ≤ number / u.2))

/-- The small-number precision search of valueFormatters.none (Graph.js
lines 146 to 152): first base whose quotient is at least 2. -/
def smallNumberFind (number : ℚ) : Option (ℚ × ℕ) :=
  [((1 : ℚ), 0), (1 / 10, 1), (1 / 100, 2), (1 / 1000, 3),
   (1 / 10000, 4)].find? (fun u => decide (2 ≤ number / u.1))

/-- valueFormatters.none (Graph.js lines 134 to 167): choose unit and
precision from the reference magnitude, then render each value. -/
def valueFormatterNone (number : ℚ) : Option ℚ → String :=
  let big := bigNumberFind number
  let small := smallNumberFind number
  let baseUnit : ℚ := match big with
    | some u => u.2
    | none => 1
  let unitLabel : String := match big with
    | some u => u.1
    | none => ""
  let precision : ℕ := match big with
    | some _ => 0
    | none => match small with
      | some u => u.2
      | none => 4
  fun n => match n with
    | none => "---"
    | some q => if q = 0 then "0" else jsToFixed (q / baseUnit) precision ++ " " ++ unitLabel

/-- The binary-unit search of valueFormatters.bytes (Graph.js lines 170 to
176). -/
def bytesFind (bytes : ℚ) : Option (String × ℚ) :=
  [("TB", (1024 : ℚ) ^ 4), ("GB", 1024 ^ 3), ("MB", 1024 ^ 2),
   ("kB", 1024), ("B", 1)].find? (fun u => decide (2 ≤ bytes / u.2))

/-- valueFormatters.bytes (Graph.js lines 169 to 183): when no binary unit
matched the reference magnitude, every non-null value renders as "0". -/
def valueFormatterBytes (bytes : ℚ) : Option ℚ → String :=
  let data := bytesFind bytes
  fun n => match n with
    | none => "---"
    | some q => match data with
      | none => "0"
      | some u => intRepr (jsRound (q / u.2)) ++ " " ++ u.1

/-- valueFormatters.percent (Graph.js lines 185 to 191). -/
def valueFormatterPercent : Option ℚ → String :=
  fun n => match n with
    | none => "---"
    | some q => if q = 0 then "0%" else jsToFixed (q * 100) 2 ++ "%"

/-- An input series as processMultiSeries consumes it: the derived name
(`getSeriesName(series)` applied to the metadata) and the raw
`[timestamp, value]` sample pairs. -/
structure InputSeries where
  name : String
  values : List (ℚ × String)
deriving DecidableEq, Repr

/-- The sorted list of derived series names (Graph.js lines 328 to 330):
`multiSeries.map(getSeriesName).sort()`. -/
def multiSeriesNames (multiSeries : List InputSeries) : List String :=
  List.insertionSort (fun a b => strLeB a b = true)
    (multiSeries.map InputSeries.name)

/-- The valuesByTimestamp table: every slot starts as a gap (`null`), and
each sample of each input series overwrites the slot for the name at the
position of the series in the original, unsorted order
(`multiSeriesNames[seriesIndex]`, Graph.js lines 347 to 354). -/
def fillTable (names : List String) (quantizer : ℚ → ℚ)
    (multiSeries : List InputSeries) : ℚ → String → Option JsNum :=
  multiSeries.enum.foldl
    (fun tbl p =>
      p.2.values.foldl
        (fun tbl point =>
          let value := parseGraphValue point.2
          let timestampSec := quantizer point.1
          let seriesName := names.getD p.1 ""
          fun t n => if t = timestampSec ∧ n = seriesName then value else tbl t n)
        tbl)
    (fun _ _ => none)

/-- The d3 stackOffsetNone recurrence from one series to the next: the new
lower bound is the previous upper bound (or the previous lower bound when
that was NaN), and the new upper bound adds the series value to it. -/
def stackFrom (prev : JsNum × JsNum) : List JsNum → List (JsNum × JsNum)
  | [] => []
  | v :: vs =>
    let off := match prev.2 with
      | JsNum.nan => prev.1
      | t => t
    let top := jsAdd v off
    (off, top) :: stackFrom (off, top) vs

/-- One column (one timestamp) of a d3 `stack().keys(names)` result with
the default stackOffsetNone: the (lower, upper) pair per series, series 0
starting at 0. -/
def stackColumn : List JsNum → List (JsNum × JsNum)
  | [] => []
  | v :: vs => (JsNum.num 0, v) :: stackFrom (JsNum.num 0, v) vs

/-- processMultiSeries (Graph.js lines 326 to 377): sort the derived names,
build the quantized value table, and store one aligned series per sorted
name, with key `name:index` and the theme color at the index.  The
datapoints follow `timestampSecs`, the string-sorted timestamp array, but
the stacked rows follow `sortBy(values(valuesByTimestamp),
['timestampSec'])`, the rows in ascending numeric timestamp order; the
offset stored at datapoint position `timestampIndex`
(`stackedData[seriesIndex][timestampIndex][0]`) is therefore the stacked
lower bound of the column at position `timestampIndex` of the numerically
sorted row list, not of the column at the datapoint's own timestamp. -/
def processMultiSeries (getColor : ℕ → String)
    (startTimeSec endTimeSec stepDurationSec : ℚ)
    (multiSeries : List InputSeries) : List AlignedSeries :=
  let names := multiSeriesNames multiSeries
  let quantizer := getTimestampQuantizer startTimeSec endTimeSec stepDurationSec
  let timestampSecs := gridList startTimeSec endTimeSec stepDurationSec
  let tbl := fillTable names quantizer multiSeries
  let rowTimestamps := List.insertionSort (fun a b : ℚ => a ≤ b) timestampSecs
  names.enum.map (fun p =>
    { name := p.2
      key := p.2 ++ ":" ++ Nat.repr p.1
      color := getColor p.1
      datapoints := timestampSecs.enum.map (fun tp =>
        { timestampSec := tp.2
          value := tbl tp.2 p.2
          offset :=
            ((stackColumn (names.map (fun n =>
              jsToNumber (tbl (rowTimestamps.getD tp.1 0) n)))).getD
              p.1 (JsNum.nan, JsNum.nan)).1 }) })

/-- getDatapointOffset (Graph.js lines 452 to 454): zero when a legend
series is selected, the stored offset otherwise. -/
def getDatapointOffset (selectedLegendSeriesKey : Option String) (d : Dp) :
    JsNum :=
  if selectedLegendSeriesKey.isSome then JsNum.num 0 else d.offset

/-- getDatapointGraphValue (Graph.js lines 445 to 450): the raw value in
line mode; offset plus value (JavaScript `+`, so a null value coerces to 0)
in stacked mode. -/
def getDatapointGraphValue (showStacked : Bool)
    (selectedLegendSeriesKey : Option String) (d : Dp) : Option JsNum :=
  if !showStacked then d.value
  else some (jsAdd (getDatapointOffset selectedLegendSeriesKey d)
    (jsToNumber d.value))

/-- A hover point as handleGraphMouseMove builds it (Graph.js lines 263 to
273). -/
structure HoverPoint where
  graphValue : Option JsNum
  value : Option JsNum
  key : String
  name : String
  color : String
deriving DecidableEq, Repr

/-- One step of lodash `minBy`: a computed value that is null or NaN is
skipped; otherwise it replaces the best-so-far exactly when strictly
smaller (so the first of equals is kept). -/
def minByStep (f : α → Option JsNum) (acc : Option (α × JsNum)) (x : α) :
    Option (α × JsNum) :=
  match f x with
  | none => acc
  | some JsNum.nan => acc
  | some v =>
    match acc with
    | none => some (x, v)
    | some yw => if jsLtB v yw.2 then some (x, v) else acc

/-- lodash `minBy`: undefined (`none`) on an empty or all-skipped list. -/
def minByJs (f : α → Option JsNum) (l : List α) : Option α :=
  (l.foldl (minByStep f) none).map Prod.fst

/-- The stacked-mode qualifying test (Graph.js line 279):
`s.graphValue >= cursorValue`, with the null coercion of the JavaScript
relational comparison. -/
def isSeriesAbove (cursorValue : ℚ) (s : HoverPoint) : Bool :=
  jsGeB (jsToNumber s.graphValue) (JsNum.num cursorValue)

/-- The line-mode distance (Graph.js line 284):
`Math.abs(s.graphValue - cursorValue)`, with the null coercion of the
JavaScript subtraction. -/
def distanceFromCursor (cursorValue : ℚ) (s : HoverPoint) : JsNum :=
  jsAbs (jsSub (jsToNumber s.graphValue) (JsNum.num cursorValue))

/-- The focused-series choice of handleGraphMouseMove (Graph.js lines 275
to 286): in stacked mode the smallest qualifying graph value, in line mode
the smallest distance from the cursor; the key of the chosen hover point,
or none when `minBy` returned undefined. -/
def focusedSeriesKey (showStacked : Bool) (cursorValue : ℚ)
    (hoverPoints : List HoverPoint) : Option String :=
  if showStacked then
    (minByJs (fun s => s.graphValue)
      (hoverPoints.filter (isSeriesAbove cursorValue))).map HoverPoint.key
  else
    (minByJs (fun s => some (distanceFromCursor cursorValue s))
      hoverPoints).map HoverPoint.key

/-- The focus flags added to the hover points (Graph.js lines 289 to 292):
`focused: focusedSeries.key === s.key` (false against the empty object). -/
def markFocused (focusedKey : Option String) (hoverPoints : List HoverPoint) :
    List (HoverPoint × Bool) :=
  hoverPoints.map (fun s => (s, decide (focusedKey = some s.key)))

/-- The hover-point computation of handleGraphMouseMove (Graph.js lines 250
to 304) after the cursor has been inverted and quantized: build one hover
point per visible series from its datapoint at the hovered timestamp, pick
the focused key, flag each point, and keep only the focused point under
simpleTooltip.  A failed datapoint lookup (JavaScript undefined
dereference) is `none`. -/
def handleGraphMouseMove (showStacked simpleTooltip : Bool)
    (selectedLegendSeriesKey : Option String) (cursorValue : ℚ)
    (hoverTimestampSec : ℚ) (visibleMultiSeries : List AlignedSeries) :
    Option (List (HoverPoint × Bool)) :=
  (visibleMultiSeries.mapM (fun series =>
    (getDatapointAtTimestamp series hoverTimestampSec).map (fun datapoint =>
      ({ graphValue :=
           getDatapointGraphValue showStacked selectedLegendSeriesKey datapoint
         value := datapoint.value
         key := series.key
         name := series.name
         color := series.color } : HoverPoint)))).map
    (fun hoverPoints =>
      let withFocus :=
        markFocused (focusedSeriesKey showStacked cursorValue hoverPoints)
          hoverPoints
      if simpleTooltip then withFocus.filter (fun p => p.2) else withFocus)

/-- Adding literal zero is the identity on every JavaScript number. -/
theorem jsAdd_num_zero (a : JsNum) : jsAdd a (JsNum.num 0) = a := by
  cases a <;> simp [jsAdd]

/-- No big-number unit matches a reference magnitude below 2000. -/
theorem bigNumberFind_eq_none (number : ℚ) (h : number < 2000) :
    bigNumberFind number = none := by
  have h1 : ¬(2 ≤ number / 1000000000000) := by
    rw [not_le, div_lt_iff₀ (by norm_num)]
    linarith
  have h2 : ¬(2 ≤ number / 1000000000) := by
    rw [not_le, div_lt_iff₀ (by norm_num)]
    linarith
  have h3 : ¬(2 ≤ number / 1000000) := by
    rw [not_le, div_lt_iff₀ (by norm_num)]
    linarith
  have h4 : ¬(2 ≤ number / 1000) := by
    rw [not_le, div_lt_iff₀ (by norm_num)]
    linarith
  simp [bigNumberFind, List.find?, h1, h2, h3, h4]

/-- No small-number base matches a reference magnitude below 1/5000. -/
theorem smallNumberFind_eq_none (number : ℚ) (h : number < 1 / 5000) :
    smallNumberFind number = none := by
  have h1 : ¬(2 ≤ number) := by linarith
  have h2 : ¬(2 ≤ number * 10) := by linarith
  have h3 : ¬(2 ≤ number * 100) := by linarith
  have h4 : ¬(2 ≤ number * 1000) := by linarith
  have h5 : ¬(2 ≤ number * 10000) := by linarith
  simp [smallNumberFind, List.find?, h1, h2, h3, h4, h5]

/-- No binary unit matches a reference magnitude below 2. -/
theorem bytesFind_eq_none (bytes : ℚ) (h : bytes < 2) :
    bytesFind bytes = none := by
  have h1 : ¬(2 ≤ bytes / 1024 ^ 4) := by
    rw [not_le, div_lt_iff₀ (by norm_num)]
    linarith
  have h2 : ¬(2 ≤ bytes / 1024 ^ 3) := by
    rw [not_le, div_lt_iff₀ (by norm_num)]
    linarith
  have h3 : ¬(2 ≤ bytes / 1024 ^ 2) := by
    rw [not_le, div_lt_iff₀ (by norm_num)]
    linarith
  have h4 : ¬(2 ≤ bytes / 1024) := by
    rw [not_le, div_lt_iff₀ (by norm_num)]
    linarith
  have h5 : ¬(2 ≤ bytes) := by linarith
  simp [bytesFind, List.find?, h1, h2, h3, h4, h5]

/-- C10: for the bytes unit scheme with a reference magnitude below 2 (so
no binary unit matches, the 1-byte unit included), the returned rendering
function maps every non-gap value, nonzero values included, to the string
"0", ignoring the value entirely; only a gap still renders as "---". -/
theorem bytes_formatter_below_two (bytes : ℚ) (h : bytes < 2) :
    valueFormatterBytes bytes none = "---" ∧
    ∀ q : ℚ, valueFormatterBytes bytes (some q) = "0" := by
  have hfind := bytesFind_eq_none bytes h
  constructor
  · simp [valueFormatterBytes]
  · intro q
    simp [valueFormatterBytes, hfind]

/-- C10 witness: reference magnitude 1, applied to the nonzero values 1 and
19/10 and to a gap. -/
theorem bytes_formatter_below_two_witness :
    valueFormatterBytes 1 none = "---" ∧
    valueFormatterBytes 1 (some 1) = "0" ∧
    valueFormatterBytes 1 (some (19 / 10)) = "0" := by
  have h := bytes_formatter_below_two 1 (by norm_num)
  exact ⟨h.1, h.2 1, h.2 (19 / 10)⟩

/-- Concrete toFixed evaluation used for the C8 statements: four decimal
places on the value 3/2. -/
theorem jsToFixed_three_halves_four : jsToFixed (3 / 2) 4 = "1.5000" := by
  have hfl : ⌊(3 / 2 : ℚ) * 10 ^ 4 + 1 / 2⌋ = 15000 := by
    rw [Int.floor_eq_iff]
    constructor <;> norm_num
  have hneg : ¬((3 / 2 : ℚ) < 0) := by norm_num
  rw [jsToFixed, if_neg hneg, jsToFixedNN, hfl]
  norm_num
  decide

/-- Concrete toFixed evaluation used for the C8 statements: integer
precision on the value 3/2 rounds up to 2. -/
theorem jsToFixed_three_halves_zero : jsToFixed (3 / 2) 0 = "2" := by
  have hfl : ⌊(3 / 2 : ℚ) * 10 ^ 0 + 1 / 2⌋ = 2 := by
    rw [Int.floor_eq_iff]
    constructor <;> norm_num
  have hneg : ¬((3 / 2 : ℚ) < 0) := by norm_num
  rw [jsToFixed, if_neg hneg, jsToFixedNN, hfl]
  norm_num
  decide

/-- Rendering at integer precision with no unit prefix, in the output shape
of valueFormatters.none: the rendering the C8 claim asserts for the
no-threshold fallback (a definition following the claim wording, for
comparison with the code). -/
def integerPrecisionRender (q : ℚ) : String := jsToFixed q 0 ++ " "

/-- C8 counterexample: with reference magnitude 1/10000 no big-number and
no small-number threshold matches, yet the nonzero value 3/2 renders as
"1.5000 " (four decimal places), not at the integer precision the claim
states. -/
theorem none_formatter_fallback_counterexample :
    bigNumberFind (1 / 10000) = none ∧
    smallNumberFind (1 / 10000) = none ∧
    valueFormatterNone (1 / 10000) (some (3 / 2)) = "1.5000 " ∧
    ¬valueFormatterNone (1 / 10000) (some (3 / 2)) = integerPrecisionRender (3 / 2) := by
  have hbig := bigNumberFind_eq_none (1 / 10000) (by norm_num)
  have hsmall := smallNumberFind_eq_none (1 / 10000) (by norm_num)
  have heval : valueFormatterNone (1 / 10000) (some (3 / 2)) = "1.5000 " := by
    simp only [valueFormatterNone, hbig, hsmall]
    norm_num [jsToFixed_three_halves_four]
    decide
  refine ⟨hbig, hsmall, heval, ?_⟩
  rw [heval, integerPrecisionRender, jsToFixed_three_halves_zero]
  decide

/-- C8 amended: for the none unit scheme, a gap always renders as "---" and
zero as "0"; and when neither a big-number nor a small-number threshold
matches the reference magnitude, every nonzero non-gap value is rendered
with four decimal places (the default precision) and no unit prefix. -/
theorem none_formatter_fallback (number : ℚ)
    (hbig : bigNumberFind number = none)
    (hsmall : smallNumberFind number = none) :
    (∀ r : ℚ, valueFormatterNone r none = "---" ∧
      valueFormatterNone r (some 0) = "0") ∧
    ∀ q : ℚ, q ≠ 0 →
      valueFormatterNone number (some q) = jsToFixed q 4 ++ " " := by
  constructor
  · intro r
    constructor
    · simp [valueFormatterNone]
    · simp [valueFormatterNone]
  · intro q hq
    simp only [valueFormatterNone, hbig, hsmall]
    simp [hq]

/-- C8 witness: reference magnitude 1/10000 matches no threshold; the gap
and zero renderings, and the four-decimal rendering of the nonzero value
3/2. -/
theorem none_formatter_fallback_witness :
    valueFormatterNone (1 / 10000) none = "---" ∧
    valueFormatterNone (1 / 10000) (some 0) = "0" ∧
    valueFormatterNone (1 / 10000) (some (3 / 2)) = jsToFixed (3 / 2) 4 ++ " " := by
  have h := none_formatter_fallback (1 / 10000)
    (bigNumberFind_eq_none (1 / 10000) (by norm_num))
    (smallNumberFind_eq_none (1 / 10000) (by norm_num))
  exact ⟨(h.1 (1 / 10000)).1, (h.1 (1 / 10000)).2, h.2 (3 / 2) (by norm_num)⟩

/-- Concrete parseFloat evaluation: the finite literal "3.5". -/
theorem jsParseFloat_35 : jsParseFloat "3.5" = JsNum.num (7 / 2) := by
  conv_lhs => whnf
  rw [show List.dropWhile Char.isDigit ['3', '.', '5'] = ['.', '5'] from by decide]
  simp only []
  rw [show List.takeWhile Char.isDigit ['3', '.', '5'] = ['3'] from by decide,
    show List.takeWhile Char.isDigit ['5'] = ['5'] from by decide,
    show List.dropWhile Char.isDigit ['5'] = ([] : List Char) from by decide]
  rw [show digitsVal ['3'] = 3 from by decide,
    show digitsVal ['5'] = 5 from by decide,
    show jsParseExponent [] = 0 from by decide]
  norm_num

/-- C7 counterexample: the textual infinity "Infinity" does not become a
gap: parseFloat parses it to the value Infinity, which parseGraphValue
returns as a number. -/
theorem parseGraphValue_infinity_counterexample :
    parseGraphValue "Infinity" = some JsNum.posInf ∧
    ¬parseGraphValue "Infinity" = none := by
  constructor
  · decide
  · decide

/-- C7 amended: parseGraphValue returns a gap exactly for values parseFloat
cannot parse at all (NaN results), the Prometheus spellings "+Inf" and
"-Inf" included; it never returns NaN and never fails; but a value
parseFloat does parse comes back as that number even when it is not finite:
the spellings "Infinity" and "-Infinity" yield the infinities, not gaps. -/
theorem parseGraphValue_amended :
    (∀ s : String, parseGraphValue s ≠ some JsNum.nan) ∧
    parseGraphValue "+Inf" = none ∧
    parseGraphValue "-Inf" = none ∧
    parseGraphValue "foo" = none ∧
    parseGraphValue "" = none ∧
    parseGraphValue "3.5" = some (JsNum.num (7 / 2)) ∧
    parseGraphValue "Infinity" = some JsNum.posInf ∧
    parseGraphValue "-Infinity" = some JsNum.negInf := by
  refine ⟨?_, by decide, by decide, by decide, by decide, ?_, by decide, by decide⟩
  · intro s
    cases h : jsParseFloat s <;> simp [parseGraphValue, h]
  · rw [parseGraphValue, jsParseFloat_35]

/-- C4 amended: a visible series whose value at the hovered timestamp is a
gap still yields a hover point with value gap (flagging focus never drops
or changes points), but it is not excluded from focus candidacy: in stacked
mode its graph value is its stack offset (the null value coerces to 0 in
the addition), and in line mode its distance from the cursor is the
absolute cursor value (the null graph value coerces to 0 in the
subtraction), so a gap series can win focus, and with every series a gap a
series can still be focused. -/
theorem hover_gap_amended :
    (∀ (fk : Option String) (pts : List HoverPoint),
      (markFocused fk pts).map Prod.fst = pts) ∧
    (∀ d : Dp, d.value = none →
      getDatapointGraphValue true none d = some d.offset) ∧
    (∀ (c : ℚ) (p : HoverPoint), p.graphValue = none →
      distanceFromCursor c p = JsNum.num |c|) := by
  refine ⟨?_, ?_, ?_⟩
  · intro fk pts
    simp [markFocused, List.map_map, Function.comp_def]
  · intro d h
    simp [getDatapointGraphValue, getDatapointOffset, h, jsToNumber, jsAdd_num_zero]
  · intro c p h
    simp [distanceFromCursor, h, jsToNumber, jsSub, jsAdd, jsNeg, jsAbs]

/-- C4 witness: the flagged hover list over one gap point keeps the point,
a gap datapoint with offset 3 gets graph value 3 in stacked mode, and a gap
hover point at cursor value 7 competes with distance 7. -/
theorem hover_gap_amended_witness :
    (markFocused (some "k") [⟨none, none, "k", "n", "c"⟩]).map Prod.fst =
      [⟨none, none, "k", "n", "c"⟩] ∧
    getDatapointGraphValue true none ⟨0, none, JsNum.num 3⟩ =
      some (JsNum.num 3) ∧
    distanceFromCursor 7 ⟨none, none, "k", "n", "c"⟩ = JsNum.num |(7 : ℚ)| := by
  exact ⟨hover_gap_amended.1 (some "k") [⟨none, none, "k", "n", "c"⟩],
    hover_gap_amended.2.1 ⟨0, none, JsNum.num 3⟩ rfl,
    hover_gap_amended.2.2 7 ⟨none, none, "k", "n", "c"⟩ rfl⟩

/-- C4 counterexample: line mode, one visible series whose value at the
hovered timestamp is a gap, cursor value 7: the gap series comes back as
the focused series (flag true), contradicting the claim that a gap series
is never focused and that an all-gap timestamp focuses nothing. -/
theorem hover_gap_counterexample :
    handleGraphMouseMove false false none 7 0
      [⟨"s", "s:0", "c0", [⟨0, none, JsNum.num 0⟩]⟩] =
      some [(⟨none, none, "s:0", "s", "c0"⟩, true)] := by
  have hdp : getDatapointAtTimestamp ⟨"s", "s:0", "c0", [⟨0, none, JsNum.num 0⟩]⟩ 0 =
      some ⟨0, none, JsNum.num 0⟩ := by
    decide
  have hfk : focusedSeriesKey false 7 [⟨none, none, "s:0", "s", "c0"⟩] = some "s:0" := by
    simp only [focusedSeriesKey, minByJs, List.foldl, minByStep, distanceFromCursor,
      jsToNumber, jsSub, jsNeg, jsAdd, jsAbs, if_false]
    simp
  simp only [handleGraphMouseMove, List.mapM_cons, List.mapM_nil, hdp,
    getDatapointGraphValue, Bool.not_false, if_true, Option.map_some, Option.some_bind,
    Option.bind_some, Option.map_eq_map, List.map_cons, List.map_nil]
  simp only [Option.bind, Option.map]
  simp [hfk, markFocused]

/-- The rational carried by a finite graph value (0 for gaps and non-finite values); used to state bounds about hover points and stacking. -/
def qval : Option JsNum → ℚ
  | some (JsNum.num q) => q
  | _ => 0

/-- The fold inside lodash minBy, on a list whose computed values are all finite: starting from a best-so-far, it returns an element of the candidates whose computed value is minimal. -/
theorem minByFold_spec (f : α → Option JsNum) (g : α → ℚ) :
    ∀ (l : List α) (y : α), (∀ x ∈ l, f x = some (JsNum.num (g x))) →
    ∃ z, l.foldl (minByStep f) (some (y, JsNum.num (g y))) =
        some (z, JsNum.num (g z)) ∧
      (z = y ∨ z ∈ l) ∧ g z ≤ g y ∧ ∀ p ∈ l, g z ≤ g p := by
  intro l
  induction l with
  | nil => exact fun y _ => ⟨y, rfl, Or.inl rfl, le_refl _, by simp⟩
  | cons x xs ih =>
    intro y hg
    have hx : f x = some (JsNum.num (g x)) := hg x (by simp)
    have hxs : ∀ p ∈ xs, f p = some (JsNum.num (g p)) := fun p hp => hg p (by simp [hp])
    by_cases hlt : g x < g y
    · have hstep : minByStep f (some (y, JsNum.num (g y))) x = some (x, JsNum.num (g x)) := by
        simp [minByStep, hx, jsLtB, hlt]
      obtain ⟨z, hz, hmem, hle, hall⟩ := ih x hxs
      refine ⟨z, ?_, ?_, ?_, ?_⟩
      · rw [List.foldl_cons, hstep, hz]
      · rcases hmem with h | h
        · exact Or.inr (by simp [h])
        · exact Or.inr (by simp [h])
      · exact le_of_lt (lt_of_le_of_lt hle hlt)
      · intro p hp
        rcases List.mem_cons.mp hp with h | h
        · exact h ▸ hle
        · exact hall p h
    · have hstep : minByStep f (some (y, JsNum.num (g y))) x = some (y, JsNum.num (g y)) := by
        simp [minByStep, hx, jsLtB, hlt]
      obtain ⟨z, hz, hmem, hle, hall⟩ := ih y hxs
      refine ⟨z, ?_, ?_, ?_, ?_⟩
      · rw [List.foldl_cons, hstep, hz]
      · rcases hmem with h | h
        · exact Or.inl h
        · exact Or.inr (by simp [h])
      · exact hle
      · intro p hp
        rcases List.mem_cons.mp hp with h | h
        · exact h ▸ (le_trans hle (not_lt.mp hlt))
        · exact hall p h

/-- lodash minBy on a list whose computed values are all finite: none exactly on the empty list, otherwise an element whose computed value is minimal. -/
theorem minByJs_spec (f : α → Option JsNum) (g : α → ℚ) (l : List α)
    (hg : ∀ x ∈ l, f x = some (JsNum.num (g x))) :
    (l = [] ∧ minByJs f l = none) ∨
    ∃ z, minByJs f l = some z ∧ z ∈ l ∧ ∀ p ∈ l, g z ≤ g p := by
  cases l with
  | nil => exact Or.inl ⟨rfl, rfl⟩
  | cons x xs =>
    have hx : f x = some (JsNum.num (g x)) := hg x (by simp)
    have hxs : ∀ p ∈ xs, f p = some (JsNum.num (g p)) := fun p hp => hg p (by simp [hp])
    obtain ⟨z, hz, hmem, hle, hall⟩ := minByFold_spec f g xs x hxs
    refine Or.inr ⟨z, ?_, ?_, ?_⟩
    · rw [minByJs, List.foldl_cons]
      rw [show minByStep f none x = some (x, JsNum.num (g x)) from by simp [minByStep, hx]]
      rw [hz]
      rfl
    · rcases hmem with h | h
      · simp [h]
      · simp [h]
    · intro p hp
      rcases List.mem_cons.mp hp with h | h
      · exact h ▸ hle
      · exact hall p h

/-- C3: in stacked mode, with every hover point carrying a finite graph value and the keys distinct: when no graph value is at least the cursor value no point is flagged focused; a focused point has a qualifying graph value that is minimal among the qualifying ones; and when some point qualifies, exactly one point is flagged focused. -/
theorem hover_focus_stacked (c : ℚ) (pts : List HoverPoint)
    (hfin : ∀ p ∈ pts, ∃ q : ℚ, p.graphValue = some (JsNum.num q))
    (hkeys : (pts.map HoverPoint.key).Nodup) :
    ((∀ p ∈ pts, ∀ q : ℚ, p.graphValue = some (JsNum.num q) → q < c) →
      ∀ x ∈ markFocused (focusedSeriesKey true c pts) pts, x.2 = false) ∧
    (∀ x ∈ markFocused (focusedSeriesKey true c pts) pts, x.2 = true →
      ∃ qx : ℚ, x.1.graphValue = some (JsNum.num qx) ∧ c ≤ qx ∧
        ∀ p ∈ pts, ∀ qp : ℚ, p.graphValue = some (JsNum.num qp) → c ≤ qp → qx ≤ qp) ∧
    ((∃ p ∈ pts, ∃ qp : ℚ, p.graphValue = some (JsNum.num qp) ∧ c ≤ qp) →
      ∃ x ∈ markFocused (focusedSeriesKey true c pts) pts, x.2 = true ∧
        ∀ y ∈ markFocused (focusedSeriesKey true c pts) pts, y.2 = true → y = x) := by
  have hval : ∀ p ∈ pts, p.graphValue = some (JsNum.num (qval p.graphValue)) := by
    intro p hp
    obtain ⟨q, hq⟩ := hfin p hp
    rw [hq]
    rfl
  have habove : ∀ p ∈ pts, (isSeriesAbove c p = true ↔ c ≤ qval p.graphValue) := by
    intro p hp
    obtain ⟨q, hq⟩ := hfin p hp
    simp only [isSeriesAbove, jsToNumber, hq, Option.getD_some, qval]
    simp [jsGeB, jsLtB, not_lt]
  have hSsub : ∀ x ∈ pts.filter (isSeriesAbove c), x ∈ pts :=
    fun x hx => (List.mem_filter.mp hx).1
  have hgS : ∀ x ∈ pts.filter (isSeriesAbove c),
      (fun s : HoverPoint => s.graphValue) x = some (JsNum.num (qval x.graphValue)) :=
    fun x hx => hval x (hSsub x hx)
  have hspec := minByJs_spec (fun s : HoverPoint => s.graphValue)
    (fun s => qval s.graphValue) _ hgS
  refine ⟨?_, ?_, ?_⟩
  · intro hbelow x hx
    have hS : pts.filter (isSeriesAbove c) = [] := by
      rw [List.filter_eq_nil_iff]
      intro p hp
      have hb := hbelow p hp (qval p.graphValue) (hval p hp)
      intro hcontra
      exact absurd ((habove p hp).mp hcontra) (not_le.mpr hb)
    have hfk : focusedSeriesKey true c pts = none := by
      rw [focusedSeriesKey, if_pos rfl, hS]
      rfl
    rw [hfk] at hx
    obtain ⟨p, _, rfl⟩ := List.mem_map.mp hx
    simp
  · intro x hx hfoc
    obtain ⟨p, hp, rfl⟩ := List.mem_map.mp hx
    have hkey : focusedSeriesKey true c pts = some p.key := of_decide_eq_true hfoc
    rcases hspec with ⟨hSnil, hnone⟩ | ⟨m, hm, hmemS, hmin⟩
    · rw [focusedSeriesKey, if_pos rfl, hnone] at hkey
      exact absurd hkey (by simp)
    · rw [focusedSeriesKey, if_pos rfl, hm] at hkey
      have hkeq : p.key = m.key := by
        simpa using hkey.symm
      have hpm : p = m :=
        List.inj_on_of_nodup_map hkeys hp (hSsub m hmemS) hkeq
      refine ⟨qval p.graphValue, hval p hp, ?_, ?_⟩
      · rw [hpm]
        exact (habove m (hSsub m hmemS)).mp (List.mem_filter.mp hmemS).2
      · intro p2 hp2 qp hqp hcq
        have hq2 : qval p2.graphValue = qp := by
          rw [hqp]
          rfl
        have hmemS2 : p2 ∈ pts.filter (isSeriesAbove c) :=
          List.mem_filter.mpr ⟨hp2, (habove p2 hp2).mpr (hq2 ▸ hcq)⟩
        rw [hpm, ← hq2]
        exact hmin p2 hmemS2
  · rintro ⟨p, hp, qp, hqp, hcq⟩
    have hq2 : qval p.graphValue = qp := by
      rw [hqp]
      rfl
    have hmemS : p ∈ pts.filter (isSeriesAbove c) :=
      List.mem_filter.mpr ⟨hp, (habove p hp).mpr (hq2 ▸ hcq)⟩
    rcases hspec with ⟨hSnil, _⟩ | ⟨m, hm, hmemSm, _⟩
    · rw [hSnil] at hmemS
      exact absurd hmemS (List.not_mem_nil p)
    · have hfk : focusedSeriesKey true c pts = some m.key := by
        rw [focusedSeriesKey, if_pos rfl, hm]
        rfl
      refine ⟨(m, true), ?_, rfl, ?_⟩
      · rw [markFocused]
        refine List.mem_map.mpr ⟨m, hSsub m hmemSm, ?_⟩
        rw [hfk]
        simp
      · intro y hy hyfoc
        obtain ⟨p2, hp2, rfl⟩ := List.mem_map.mp hy
        have hkey2 : focusedSeriesKey true c pts = some p2.key := of_decide_eq_true hyfoc
        rw [hfk] at hkey2
        have hkeq2 : p2.key = m.key := by
          have := hkey2
          simp only [Option.some.injEq] at this
          exact this.symm
        have hpm2 : p2 = m :=
          List.inj_on_of_nodup_map hkeys hp2 (hSsub m hmemSm) hkeq2
        rw [hpm2, hfk]
        simp

/-- C3 witness: the spec scenario, two stacked series with values 3 and 4
(cumulative tops 3 and 7) and cursor value 5: the point with graph value 7
(offset 3, value 4) is the one flagged focused, and the focused point is
unique. -/
theorem hover_focus_stacked_witness :
    markFocused (focusedSeriesKey true 5
        [⟨some (JsNum.num 3), some (JsNum.num 3), "a:0", "a", "c"⟩,
         ⟨some (JsNum.num 7), some (JsNum.num 4), "b:1", "b", "c"⟩])
        [⟨some (JsNum.num 3), some (JsNum.num 3), "a:0", "a", "c"⟩,
         ⟨some (JsNum.num 7), some (JsNum.num 4), "b:1", "b", "c"⟩] =
      [(⟨some (JsNum.num 3), some (JsNum.num 3), "a:0", "a", "c"⟩, false),
       (⟨some (JsNum.num 7), some (JsNum.num 4), "b:1", "b", "c"⟩, true)] ∧
    ∃ x ∈ markFocused (focusedSeriesKey true 5
        [⟨some (JsNum.num 3), some (JsNum.num 3), "a:0", "a", "c"⟩,
         ⟨some (JsNum.num 7), some (JsNum.num 4), "b:1", "b", "c"⟩])
        [⟨some (JsNum.num 3), some (JsNum.num 3), "a:0", "a", "c"⟩,
         ⟨some (JsNum.num 7), some (JsNum.num 4), "b:1", "b", "c"⟩],
      x.2 = true ∧ ∀ y ∈ markFocused (focusedSeriesKey true 5
        [⟨some (JsNum.num 3), some (JsNum.num 3), "a:0", "a", "c"⟩,
         ⟨some (JsNum.num 7), some (JsNum.num 4), "b:1", "b", "c"⟩])
        [⟨some (JsNum.num 3), some (JsNum.num 3), "a:0", "a", "c"⟩,
         ⟨some (JsNum.num 7), some (JsNum.num 4), "b:1", "b", "c"⟩],
        y.2 = true → y = x := by
  constructor
  · decide
  · exact (hover_focus_stacked 5
      [⟨some (JsNum.num 3), some (JsNum.num 3), "a:0", "a", "c"⟩,
       ⟨some (JsNum.num 7), some (JsNum.num 4), "b:1", "b", "c"⟩]
      (by
        intro p hp
        simp only [List.mem_cons, List.not_mem_nil, or_false] at hp
        rcases hp with rfl | rfl
        · exact ⟨3, rfl⟩
        · exact ⟨7, rfl⟩)
      (by decide)).2.2
      ⟨⟨some (JsNum.num 7), some (JsNum.num 4), "b:1", "b", "c"⟩, by simp, 7, rfl,
        by norm_num⟩

/-- A valid window (positive step, end at or after start) generates at least one grid timestamp. -/
theorem gridCount_pos (s e st : ℚ) (hst : 0 < st) (hse : s ≤ e) :
    1 ≤ gridCount s e st := by
  rw [gridCount]
  have hx : (0 : ℚ) < (e - (s - tolEps)) / st := by
    apply div_pos _ hst
    rw [tolEps]
    linarith
  have hc : (0 : ℤ) < ⌈(e - (s - tolEps)) / st⌉ := Int.lt_ceil.mpr (by exact_mod_cast hx)
  omega

/-- The sorted timestamp array is a permutation of the generated descending
list. -/
theorem gridList_perm (s e st : ℚ) :
    (gridList s e st).Perm (gridDesc s e st) := by
  unfold gridList
  exact List.perm_insertionSort _ _

/-- The sorted timestamp array has exactly gridCount timestamps. -/
theorem gridList_length (s e st : ℚ) :
    (gridList s e st).length = gridCount s e st := by
  rw [(gridList_perm s e st).length_eq]
  unfold gridDesc
  rw [List.length_map, List.length_range]

/-- Membership in the sorted timestamp array (an order-free fact, unchanged
by the sort): the values endTimeSec minus a multiple of the step. -/
theorem gridList_mem_iff (s e st : ℚ) (x : ℚ) :
    x ∈ gridList s e st ↔
      ∃ i, i < gridCount s e st ∧ x = e - (i : ℚ) * st := by
  rw [(gridList_perm s e st).mem_iff]
  unfold gridDesc
  rw [List.mem_map]
  constructor
  · rintro ⟨i, hi, hfi⟩
    exact ⟨i, List.mem_range.mp hi, hfi.symm⟩
  · rintro ⟨i, hi, rfl⟩
    exact ⟨i, List.mem_range.mpr hi, rfl⟩

/-- A valid window generates a nonempty sorted timestamp array. -/
theorem gridList_ne_nil (s e st : ℚ) (hst : 0 < st) (hse : s ≤ e) :
    gridList s e st ≠ [] := by
  have h := gridCount_pos s e st hst hse
  intro hcontra
  have := gridList_length s e st
  rw [hcontra] at this
  simp at this
  omega


/-- Concrete grid size for the window (0, 10, 4). -/
theorem gridCount_0_10_4 : gridCount 0 10 4 = 3 := by
  have hc : ⌈((10 : ℚ) - (0 - tolEps)) / 4⌉ = 3 := by
    rw [Int.ceil_eq_iff]
    constructor <;> norm_num [tolEps]
  rw [gridCount, hc]
  rfl

/-- Concrete generated (descending) list for the window (0, 10, 4). -/
theorem gridDesc_0_10_4 : gridDesc 0 10 4 = [10, 6, 2] := by
  unfold gridDesc
  rw [gridCount_0_10_4]
  rw [show List.range 3 = [0, 1, 2] from by decide]
  simp only [List.map_cons, List.map_nil]
  norm_num

/-- Concrete sorted timestamp array for the window (0, 10, 4): the string
forms order as "10" < "2" < "6", so the array is [10, 2, 6], not in
ascending numeric order. -/
theorem gridList_0_10_4 : gridList 0 10 4 = [10, 2, 6] := by
  unfold gridList
  rw [gridDesc_0_10_4]
  decide

/-- C2 amended: for every valid window the sorted timestamp array is
nonempty, its largest element equals endTimeSec exactly, and its smallest
element lies strictly between startTimeSec - 1e-6 and
startTimeSec + stepDurationSec; the smallest element is NOT in general at
or before startTimeSec, and the array is not in general in ascending
numeric order, so these are facts about its extreme elements, not about
its first and last positions. -/
theorem grid_coverage_amended (s e st : ℚ) (hst : 0 < st) (hse : s ≤ e) :
    gridList s e st ≠ [] ∧
    e ∈ gridList s e st ∧
    (∀ x ∈ gridList s e st, x ≤ e) ∧
    ∃ m ∈ gridList s e st, (∀ x ∈ gridList s e st, m ≤ x) ∧
      s - tolEps < m ∧ m < s + st := by
  have heps : (0 : ℚ) < tolEps := by
    rw [tolEps]
    norm_num
  have hn := gridCount_pos s e st hst hse
  have hxpos : 0 < (e - (s - tolEps)) / st := div_pos (by linarith) hst
  have hceil : (0 : ℤ) < ⌈(e - (s - tolEps)) / st⌉ :=
    Int.lt_ceil.mpr (by exact_mod_cast hxpos)
  have hcast : ((gridCount s e st : ℕ) : ℚ) =
      ((⌈(e - (s - tolEps)) / st⌉ : ℤ) : ℚ) := by
    rw [gridCount]
    have h := Int.toNat_of_nonneg (le_of_lt hceil)
    exact_mod_cast h
  have hxst : ((e - (s - tolEps)) / st) * st = e - s + tolEps := by
    field_simp
    ring
  refine ⟨gridList_ne_nil s e st hst hse, ?_, ?_, ?_⟩
  · rw [gridList_mem_iff]
    exact ⟨0, by omega, by norm_num⟩
  · intro x hx
    obtain ⟨i, hi, rfl⟩ := (gridList_mem_iff s e st x).mp hx
    have : (0 : ℚ) ≤ (i : ℚ) * st := mul_nonneg (Nat.cast_nonneg i) (le_of_lt hst)
    linarith
  · refine ⟨e - ((gridCount s e st : ℚ) - 1) * st, ?_, ?_, ?_, ?_⟩
    · rw [gridList_mem_iff]
      refine ⟨gridCount s e st - 1, by omega, ?_⟩
      rw [Nat.cast_sub (by omega)]
      norm_num
    · intro x hx
      obtain ⟨i, hi, rfl⟩ := (gridList_mem_iff s e st x).mp hx
      have hile : (i : ℚ) ≤ (gridCount s e st : ℚ) - 1 := by
        have : (i : ℚ) + 1 ≤ (gridCount s e st : ℚ) := by exact_mod_cast hi
        linarith
      nlinarith
    · have h1 : (gridCount s e st : ℚ) - 1 < (e - (s - tolEps)) / st := by
        rw [hcast]
        have hlt := Int.ceil_lt_add_one ((e - (s - tolEps)) / st)
        have hlt2 : ((⌈(e - (s - tolEps)) / st⌉ : ℤ) : ℚ) <
            (e - (s - tolEps)) / st + 1 := by exact_mod_cast hlt
        linarith
      have h2 : ((gridCount s e st : ℚ) - 1) * st < ((e - (s - tolEps)) / st) * st :=
        mul_lt_mul_of_pos_right h1 hst
      rw [hxst] at h2
      linarith
    · have h1 : (e - (s - tolEps)) / st ≤ (gridCount s e st : ℚ) := by
        rw [hcast]
        exact_mod_cast Int.le_ceil _
      have h2 : ((e - (s - tolEps)) / st) * st ≤ (gridCount s e st : ℚ) * st :=
        mul_le_mul_of_nonneg_right h1 (le_of_lt hst)
      rw [hxst] at h2
      nlinarith

/-- C2 counterexample: for (start, end, step) = (0, 10, 4) the sorted
timestamp array the code builds is [10, 2, 6] (the string order of the
rendered numbers), its smallest element is 2, and 2 is not at or before
startTimeSec = 0: the grid does not reach back to the start of the
window. -/
theorem grid_coverage_counterexample :
    gridList 0 10 4 = [10, 2, 6] ∧
    (2 : ℚ) ∈ gridList 0 10 4 ∧
    (∀ x ∈ gridList 0 10 4, (2 : ℚ) ≤ x) ∧
    ¬((2 : ℚ) ≤ 0) := by
  refine ⟨gridList_0_10_4, ?_, ?_, by norm_num⟩
  · rw [gridList_0_10_4]
    decide
  · have h : ∀ x ∈ ([10, 2, 6] : List ℚ), (2 : ℚ) ≤ x := by decide
    rw [gridList_0_10_4]
    exact h

/-- C2 witness: the amended coverage facts at the concrete window (0, 10, 4). -/
theorem grid_coverage_amended_witness :
    gridList 0 10 4 ≠ [] ∧
    (10 : ℚ) ∈ gridList 0 10 4 ∧
    (∀ x ∈ gridList 0 10 4, x ≤ 10) ∧
    ∃ m ∈ gridList 0 10 4, (∀ x ∈ gridList 0 10 4, m ≤ x) ∧
      (0 : ℚ) - tolEps < m ∧ m < 0 + 4 :=
  grid_coverage_amended 0 10 4 (by norm_num) (by norm_num)

/-- The quantizer is the d3 lookup against the half-step-extended domain. -/
theorem getTimestampQuantizer_apply (s e st x : ℚ) :
    getTimestampQuantizer s e st x =
      (gridList s e st).getD
        ((d3Thresholds ((gridList s e st).headD 0 - st / 2)
            ((gridList s e st).getLastD 0 + st / 2)
            (gridList s e st).length).countP (fun t => decide (t ≤ x))) 0 := rfl

/-- Concrete grid size for the degenerate window (0, 0, 1). -/
theorem gridCount_0_0_1 : gridCount 0 0 1 = 1 := by
  have hc : ⌈((0 : ℚ) - (0 - tolEps)) / 1⌉ = 1 := by
    rw [Int.ceil_eq_iff]
    constructor <;> norm_num [tolEps]
  rw [gridCount, hc]
  rfl

/-- Concrete generated list for the degenerate window (0, 0, 1). -/
theorem gridDesc_0_0_1 : gridDesc 0 0 1 = [0] := by
  unfold gridDesc
  rw [gridCount_0_0_1]
  rw [show List.range 1 = [0] from by decide]
  simp only [List.map_cons, List.map_nil]
  norm_num

/-- Concrete sorted timestamp array for the degenerate window (0, 0, 1). -/
theorem gridList_0_0_1 : gridList 0 0 1 = [0] := by
  unfold gridList
  rw [gridDesc_0_0_1]
  decide

/-- Concrete parseFloat evaluation of the literal "1". -/
theorem jsParseFloat_1 : jsParseFloat "1" = JsNum.num 1 := by
  conv_lhs => whnf
  rw [show List.dropWhile Char.isDigit (['1'] : List Char) = [] from by decide]
  simp only []
  rw [show List.takeWhile Char.isDigit (['1'] : List Char) = ['1'] from by decide,
    show digitsVal ['1'] = 1 from by decide,
    show jsParseExponent [] = 0 from by decide,
    show digitsVal ([] : List Char) = 0 from by decide]
  norm_num

/-- Concrete parseFloat evaluation of the literal "2". -/
theorem jsParseFloat_2 : jsParseFloat "2" = JsNum.num 2 := by
  conv_lhs => whnf
  rw [show List.dropWhile Char.isDigit (['2'] : List Char) = [] from by decide]
  simp only []
  rw [show List.takeWhile Char.isDigit (['2'] : List Char) = ['2'] from by decide,
    show digitsVal ['2'] = 2 from by decide,
    show jsParseExponent [] = 0 from by decide,
    show digitsVal ([] : List Char) = 0 from by decide]
  norm_num

/-- On the one-point grid of the window (0, 0, 1) the quantizer maps 0 to 0. -/
theorem quantize_0_0_1_at_0 : getTimestampQuantizer 0 0 1 0 = 0 := by
  rw [getTimestampQuantizer_apply, gridList_0_0_1]
  simp [d3Thresholds]

/-- C1, evaluated at the failing input: two input series arrive in the order [b, a], against the sorted name order [a, b].  The sample of the series named b (value 1) is stored in the output series named a, and the sample of the series named a (value 2) in the output series named b: each sample lands under multiSeriesNames[seriesIndex], the sorted name at the position of the series in the original order, not under the name of its own series, which is what the claim (and the intent of the surrounding code) requires. -/
theorem processMultiSeries_misattribution :
    (processMultiSeries (themeColor colorsMixed) 0 0 1
      [⟨"b", [(0, "1")]⟩, ⟨"a", [(0, "2")]⟩]).map AlignedSeries.name = ["a", "b"] ∧
    (processMultiSeries (themeColor colorsMixed) 0 0 1
      [⟨"b", [(0, "1")]⟩, ⟨"a", [(0, "2")]⟩]).map
        (fun sr => sr.datapoints.map Dp.value) =
      [[some (JsNum.num 1)], [some (JsNum.num 2)]] ∧
    ¬((processMultiSeries (themeColor colorsMixed) 0 0 1
      [⟨"b", [(0, "1")]⟩, ⟨"a", [(0, "2")]⟩]).map
        (fun sr => sr.datapoints.map Dp.value) =
      [[some (JsNum.num 2)], [some (JsNum.num 1)]]) := by
  have hnames : multiSeriesNames [⟨"b", [(0, "1")]⟩, ⟨"a", [(0, "2")]⟩] = ["a", "b"] := by
    decide
  have henum : ([⟨"b", [(0, "1")]⟩, ⟨"a", [(0, "2")]⟩] : List InputSeries).enum =
      [(0, ⟨"b", [(0, "1")]⟩), (1, ⟨"a", [(0, "2")]⟩)] := by
    decide
  have htbl_a : fillTable ["a", "b"] (getTimestampQuantizer 0 0 1)
      [⟨"b", [(0, "1")]⟩, ⟨"a", [(0, "2")]⟩] 0 "a" = some (JsNum.num 1) := by
    rw [fillTable, henum]
    simp only [List.foldl_cons, List.foldl_nil]
    simp [quantize_0_0_1_at_0, parseGraphValue, jsParseFloat_1, jsParseFloat_2]
  have htbl_b : fillTable ["a", "b"] (getTimestampQuantizer 0 0 1)
      [⟨"b", [(0, "1")]⟩, ⟨"a", [(0, "2")]⟩] 0 "b" = some (JsNum.num 2) := by
    rw [fillTable, henum]
    simp only [List.foldl_cons, List.foldl_nil]
    simp [quantize_0_0_1_at_0, parseGraphValue, jsParseFloat_1, jsParseFloat_2]
  have hexp : processMultiSeries (themeColor colorsMixed) 0 0 1
      [⟨"b", [(0, "1")]⟩, ⟨"a", [(0, "2")]⟩] =
      (["a", "b"].enum).map (fun p =>
        { name := p.2
          key := p.2 ++ ":" ++ Nat.repr p.1
          color := themeColor colorsMixed p.1
          datapoints := ([0] : List ℚ).enum.map (fun tp =>
            { timestampSec := tp.2
              value := fillTable ["a", "b"] (getTimestampQuantizer 0 0 1)
                [⟨"b", [(0, "1")]⟩, ⟨"a", [(0, "2")]⟩] tp.2 p.2
              offset :=
                ((stackColumn (["a", "b"].map (fun n =>
                  jsToNumber (fillTable ["a", "b"] (getTimestampQuantizer 0 0 1)
                    [⟨"b", [(0, "1")]⟩, ⟨"a", [(0, "2")]⟩]
                    ((List.insertionSort (fun a b : ℚ => a ≤ b) [0]).getD tp.1 0)
                    n)))).getD
                  p.1 (JsNum.nan, JsNum.nan)).1 }) }) := by
    rw [processMultiSeries, hnames, gridList_0_0_1]
  rw [hexp]
  rw [show (["a", "b"] : List String).enum = [(0, "a"), (1, "b")] from by decide,
    show ([0] : List ℚ).enum = [(0, (0 : ℚ))] from by decide]
  refine ⟨by simp, ?_, ?_⟩
  · simp only [List.map_cons, List.map_nil, htbl_a, htbl_b]
  · simp only [List.map_cons, List.map_nil, htbl_a, htbl_b]
    intro hcontra
    simp at hcontra

/-- Specification of the stacking recurrence on finite values: the running (lower, upper) pairs starting from a given top. -/
def cumFrom (t : ℚ) : List ℚ → List (ℚ × ℚ)
  | [] => []
  | q :: qs => (t, q + t) :: cumFrom (q + t) qs

/-- cumFrom preserves length. -/
theorem cumFrom_length (qs : List ℚ) : ∀ t, (cumFrom t qs).length = qs.length := by
  induction qs with
  | nil => intro t; rfl
  | cons q qs ih =>
    intro t
    rw [cumFrom, List.length_cons, ih, List.length_cons]

/-- One aligned series per sorted name. -/
theorem processMultiSeries_length (getColor : ℕ → String) (s e st : ℚ)
    (ms : List InputSeries) :
    (processMultiSeries getColor s e st ms).length = (multiSeriesNames ms).length := by
  rw [processMultiSeries]
  rw [List.length_map, List.enum_length]

